import Mathlib

/-!
Verification development for the telegram file-converter bot
(sources: `file_converter.py`, `handlers.py`, `bot.py`).

The Python sources are shallowly embedded below:

* filesystem state is an explicit list of existing file paths
  (the process-local scratch directory `temp`, used both by the
  handler, which builds the relative path `temp/<name>`, and by the
  converter, whose absolute `cwd/temp` resolves to the same directory;
  both are rendered here with the same `"temp/"` prefix);
* the external libraries (telegram download/send, `fpdf` output,
  `pdf2docx` conversion, `os.remove`) are oracles in an `Env` record:
  each either succeeds, producing the modelled effect atomically, or
  raises, producing no file;
* Python exceptions are values of `PyErr`, and fallible code returns
  `Except PyErr`.
-/

/-- Python exception taxonomy used by the sources: `ValueError` (raised on
extension mismatch), `FileNotFoundError` (missing input / missing output),
and a catch-all for `OSError`/library errors. -/
inductive PyErr where
  | valueError (msg : String)
  | fileNotFoundError (msg : String)
  | osError
deriving DecidableEq, Repr

/-- Python `str.lower()` on one character, for the ASCII range (the
filenames and tokens in the sources are ASCII). -/
def pyCharLower (c : Char) : Char :=
  if 65 ≤ c.toNat ∧ c.toNat ≤ 90 then Char.ofNat (c.toNat + 32) else c

/-- Python `str.lower()` (ASCII range). -/
def pyLower (s : String) : String :=
  String.mk (s.toList.map pyCharLower)

/-- Python `str.endswith(suffix)`. -/
def pyEndsWith (s suf : String) : Bool :=
  suf.toList.isSuffixOf s.toList

/-- The characters Python's `str.strip()` removes: ASCII whitespace
`\t \n \v \f \r space`, the C1 controls `\x1c`-`\x1f`, and the Unicode
space characters. -/
def pyIsSpace (c : Char) : Bool :=
  c.toNat = 9 ∨ c.toNat = 10 ∨ c.toNat = 11 ∨ c.toNat = 12 ∨ c.toNat = 13 ∨
  c.toNat = 28 ∨ c.toNat = 29 ∨ c.toNat = 30 ∨ c.toNat = 31 ∨ c.toNat = 32 ∨
  c.toNat = 0x85 ∨ c.toNat = 0xa0 ∨ c.toNat = 0x1680 ∨
  (0x2000 ≤ c.toNat ∧ c.toNat ≤ 0x200a) ∨
  c.toNat = 0x2028 ∨ c.toNat = 0x2029 ∨ c.toNat = 0x202f ∨
  c.toNat = 0x205f ∨ c.toNat = 0x3000

/-- Truthiness of Python `s.strip()`: the stripped string is non-empty
iff some character of `s` is not whitespace
(`if paragraph.text.strip():` in `word_to_pdf`). -/
def stripTruthy (s : String) : Bool :=
  s.toList.any (fun c => ¬ pyIsSpace c)

/-- `"".join(char for char in text if ord(char) < 128)`
(`word_to_pdf`, line 57). -/
def cleanAscii (s : String) : String :=
  String.mk (s.toList.filter (fun c => c.toNat < 128))

/-- `pathlib.Path(p).name`: the final path component. -/
def pyNameL (cs : List Char) : List Char :=
  ((cs.reverse.takeWhile (fun c => c ≠ '/')).reverse)

/-- `pathlib.Path(p).suffix` on a list of characters: the substring from
the last dot of the final component, including the dot; empty when the
name has no dot, starts with its only dot, or ends with a dot
(CPython: `i = name.rfind('.')`, suffix iff `0 < i < len(name) - 1`). -/
def pySuffixL (cs : List Char) : List Char :=
  let n := pyNameL cs
  let tl := (n.reverse.takeWhile (fun c => c ≠ '.')).reverse
  if n.contains '.' ∧ 0 < n.length - tl.length - 1 ∧ 0 < tl.length then
    '.' :: tl
  else []

/-- `pathlib.Path(p).suffix`. -/
def pySuffix (p : String) : String :=
  String.mk (pySuffixL p.toList)

/-- `pathlib.Path(p).stem`: the final component minus the suffix. -/
def pyStem (p : String) : String :=
  let n := pyNameL p.toList
  String.mk (n.take (n.length - (pySuffixL p.toList).length))

/-- `file_name.lower().endswith(('.doc', '.docx'))`
(`handlers.py`, line 106). -/
def wordExtOk (name : String) : Bool :=
  pyEndsWith (pyLower name) ".doc" || pyEndsWith (pyLower name) ".docx"

/-- `file_name.lower().endswith('.pdf')` (`handlers.py`, line 113). -/
def pdfExtOk (name : String) : Bool :=
  pyEndsWith (pyLower name) ".pdf"

/-- `file_ext in ['.doc', '.docx']` applied to `Path(p).suffix.lower()`
(`file_converter.py`, lines 27-28). -/
def wordSuffixOk (p : String) : Bool :=
  pyLower (pySuffix p) == ".doc" || pyLower (pySuffix p) == ".docx"

/-- `Path(p).suffix.lower() == '.pdf'` (`file_converter.py`, lines 83-84). -/
def pdfSuffixOk (p : String) : Bool :=
  pyLower (pySuffix p) == ".pdf"

/-- Add a path to the scratch-file set. -/
def insertFile (p : String) (fs : List String) : List String :=
  if fs.contains p then fs else p :: fs

/-- The text blocks `word_to_pdf` writes into the PDF: one
`pdf.multi_cell` call per paragraph whose `text.strip()` is truthy, in
document order, each filtered to characters with `ord(char) < 128`
(`file_converter.py`, lines 54-58). -/
def pdfBlocks (paragraphs : List String) : List String :=
  (paragraphs.filter stripTruthy).map cleanAscii

/-- `FileConverter.word_to_pdf` (`file_converter.py`, lines 21-75).
`docs` maps a path to the paragraph texts python-docx reads from it;
`writeOk` is whether `pdf.output` succeeds (failure modelled as raising
with no file written). Returns the new scratch state, the output path
and the list of written text blocks. -/
def word_to_pdf (docs : String → List String) (writeOk : Bool)
    (fs : List String) (path : String) :
    Except PyErr (List String × String × List String) :=
  if ¬ wordSuffixOk path then
    .error (.valueError
      ("Invalid file extension: " ++ pyLower (pySuffix path) ++
        ". Expected .doc or .docx"))
  else if ¬ fs.contains path then
    .error (.fileNotFoundError ("Input file not found: " ++ path))
  else
    let blocks := pdfBlocks (docs path)
    let out := "temp/" ++ pyStem path ++ ".pdf"
    if ¬ writeOk then .error .osError
    else .ok (insertFile out fs, out, blocks)

/-- `FileConverter.pdf_to_word` (`file_converter.py`, lines 77-116).
`convOk` is whether the external `pdf2docx` converter succeeds and
produces the output file (its absence afterwards raises
`FileNotFoundError` in the source; both failures are modelled as the
error branch with no file written). -/
def pdf_to_word (convOk : Bool) (fs : List String) (path : String) :
    Except PyErr (List String × String) :=
  if ¬ pdfSuffixOk path then
    .error (.valueError
      ("Invalid file extension: " ++ pyLower (pySuffix path) ++
        ". Expected .pdf"))
  else if ¬ fs.contains path then
    .error (.fileNotFoundError ("Input file not found: " ++ path))
  else
    let out := "temp/" ++ pyStem path ++ ".docx"
    if ¬ convOk then .error .osError
    else .ok (insertFile out fs, out)

/-- The body of `FileConverter.cleanup_temp_files` before its
`try`/`except`: `if os.path.exists(file_path): os.remove(file_path)`.
`removeOk` tells whether `os.remove` succeeds on a given path. -/
def cleanupBody (removeOk : String → Bool) (fs : List String)
    (path : String) : Except PyErr (List String) :=
  if fs.contains path then
    if removeOk path then .ok (fs.filter (fun q => q != path))
    else .error .osError
  else .ok fs

/-- `FileConverter.cleanup_temp_files` (`file_converter.py`,
lines 118-125): runs the body and swallows any exception, logging it;
the caller always gets the resulting filesystem state back. -/
def cleanup_temp_files (removeOk : String → Bool) (fs : List String)
    (path : String) : List String :=
  match cleanupBody removeOk fs path with
  | .ok fs' => fs'
  | .error _ => fs

/-- User-visible messages sent by the handlers (`reply_text` /
`send_document` captions), identified by which source line sends them. -/
inductive Msg where
  | pleaseSendDocument          -- "Please send a document file."
  | selectFirst                 -- "Please use /start first to select a conversion type."
  | invalidName                 -- "The file must have a valid name ..."
  | wrongExtWord                -- "For Word to PDF conversion, please send a valid Word document. ..."
  | wrongExtPdf                 -- "For PDF to Word conversion, please send a valid PDF file. ..."
  | tooLarge                    -- "File is too large. Maximum file size is 20MB."
  | converting                  -- "Converting your file... Please wait."
  | donePdf                     -- caption "Here's your converted PDF file!"
  | doneWord                    -- caption "Here's your converted Word document!"
  | errFileNotFound             -- "Error: The file could not be processed. ..."
  | errValue (msg : String)     -- "Error: {str(e)} ..."
  | errGeneric                  -- "Sorry, there was an error processing your file. ..."
  | promptWordFile              -- "Please send me the Word document (.doc or .docx) ..."
  | promptPdfFile               -- "Please send me the PDF file ..."
deriving DecidableEq, Repr

/-- Per-chat conversation state: `context.user_data`, of which the
handlers use only the key `conversion_type`. -/
structure Session where
  conversionType : Option String
deriving DecidableEq, Repr

/-- An incoming document update: `update.message.document` presence, its
`file_name` (`none` for Python `None`) and `file_size` in bytes. -/
structure DocEvent where
  hasDocument : Bool
  fileName : Option String
  fileSize : Nat
deriving DecidableEq, Repr

/-- Oracle for the external collaborators of `handle_document`:
`downloadOk` for `bot.get_file`/`download_to_drive` (failure raises and
leaves no file), `docs`/`writeOk` for the Word-to-PDF libraries,
`convOk` for `pdf2docx`, `sendOk` for `bot.send_document`, `removeOk`
for `os.remove`. -/
structure Env where
  downloadOk : Bool
  docs : String → List String
  writeOk : Bool
  convOk : Bool
  sendOk : Bool
  removeOk : String → Bool

/-- State of `handle_document`'s locals when its `try` block is left:
the pending exception (if any), the scratch filesystem, the
`download_path` and `output_path` locals (Python `None` as `none`), the
messages sent so far, and whether the converted file was sent. -/
structure TryOut where
  err : Option PyErr
  fs : List String
  dl : Option String
  outp : Option String
  msgs : List Msg
  sent : Bool

/-- The `try` block of `handle_document` (`handlers.py`, lines 131-179)
for a validated event: download to `temp/<file_name>`, reply that
conversion started, then either `word_to_pdf` (when the stored
`conversion_type` is `word_to_pdf`) or `pdf_to_word` (the `else`
branch), then `send_document`. -/
def tryConvert (env : Env) (fs : List String) (ct name : String) :
    TryOut :=
  let dp := "temp/" ++ name
  if ¬ env.downloadOk then
    { err := some .osError, fs := fs, dl := some dp, outp := none,
      msgs := [], sent := false }
  else
    let fs1 := insertFile dp fs
    if ct = "word_to_pdf" then
      match word_to_pdf env.docs env.writeOk fs1 dp with
      | .error e =>
        { err := some e, fs := fs1, dl := some dp, outp := none,
          msgs := [.converting], sent := false }
      | .ok (fs2, out, _blocks) =>
        if ¬ env.sendOk then
          { err := some .osError, fs := fs2, dl := some dp,
            outp := some out, msgs := [.converting], sent := false }
        else
          { err := none, fs := fs2, dl := some dp, outp := some out,
            msgs := [.converting, .donePdf], sent := true }
    else
      match pdf_to_word env.convOk fs1 dp with
      | .error e =>
        { err := some e, fs := fs1, dl := some dp, outp := none,
          msgs := [.converting], sent := false }
      | .ok (fs2, out) =>
        if ¬ env.sendOk then
          { err := some .osError, fs := fs2, dl := some dp,
            outp := some out, msgs := [.converting], sent := false }
        else
          { err := none, fs := fs2, dl := some dp, outp := some out,
            msgs := [.converting, .doneWord], sent := true }

/-- One guarded cleanup of the `finally` block: `if path and
os.path.exists(path): file_converter.cleanup_temp_files(path)`. Returns
the filesystem afterwards and the cleanup calls made. -/
def cleanupStep (removeOk : String → Bool) (fs : List String)
    (p : Option String) : List String × List String :=
  match p with
  | some q =>
    if fs.contains q then (cleanup_temp_files removeOk fs q, [q])
    else (fs, ([] : List String))
  | none => (fs, [])

/-- The `finally` block of `handle_document` (`handlers.py`,
lines 197-202): the guarded cleanup for `download_path`, then the one
for `output_path`. Returns the final filesystem and the list of cleanup
calls made, in order. -/
def finallyCleanup (removeOk : String → Bool) (t : TryOut) :
    List String × List String :=
  let r1 := cleanupStep removeOk t.fs t.dl
  let r2 := cleanupStep removeOk r1.1 t.outp
  (r2.1, r1.2 ++ r2.2)

/-- The `except` clauses of `handle_document` (`handlers.py`,
lines 181-196): `FileNotFoundError`, then `ValueError`, then the
catch-all. -/
def errReply : PyErr → Msg
  | .fileNotFoundError _ => .errFileNotFound
  | .valueError m => .errValue m
  | .osError => .errGeneric

/-- `max_size = 20 * 1024 * 1024` (`handlers.py`, line 121). -/
def maxSize : Nat := 20 * 1024 * 1024

/-- Result of one `handle_document` call: messages sent in order,
whether a download was attempted, the `cleanup_temp_files` calls made,
the final scratch filesystem, the session afterwards, whether a
converted document was delivered, and the final values of the
`download_path`/`output_path` locals. -/
structure DocResult where
  replies : List Msg
  downloadAttempted : Bool
  cleanupCalls : List String
  scratch : List String
  session : Session
  sent : Bool
  dlPath : Option String
  outPath : Option String

/-- A `DocResult` for the validation branches, which touch neither the
filesystem nor the session and attempt no download. -/
def rejectWith (fs : List String) (sess : Session) (m : Msg) :
    DocResult :=
  { replies := [m], downloadAttempted := false, cleanupCalls := [],
    scratch := fs, session := sess, sent := false, dlPath := none,
    outPath := none }

/-- The `try`/`except`/`finally` tail of `handle_document` for an event
that passed every validation: run the `try` block, map a pending
exception to its `except`-clause reply, and run the `finally` cleanup. -/
def convertBranch (env : Env) (fs : List String) (sess : Session)
    (ct name : String) : DocResult :=
  let t := tryConvert env fs ct name
  let fin := finallyCleanup env.removeOk t
  { replies := t.msgs ++
      (match t.err with
       | some e => [errReply e]
       | none => []),
    downloadAttempted := true, cleanupCalls := fin.2,
    scratch := fin.1, session := sess, sent := t.sent,
    dlPath := t.dl, outPath := t.outp }

theorem convertBranch_downloadAttempted (env : Env) (fs : List String)
    (sess : Session) (ct name : String) :
    (convertBranch env fs sess ct name).downloadAttempted = true := rfl

/-- `handle_document` (`handlers.py`, lines 80-202): the guard chain
(document present; `conversion_type` set; `file_name` truthy; extension
matching the selected conversion; size at most 20 MiB), then the
`try`/`except`/`finally` conversion pipeline. The handler never writes
`context.user_data`, so the session is returned unchanged. -/
def handle_document (env : Env) (fs : List String) (sess : Session)
    (ev : DocEvent) : DocResult :=
  if ¬ ev.hasDocument then rejectWith fs sess .pleaseSendDocument
  else
    match sess.conversionType with
    | none => rejectWith fs sess .selectFirst
    | some ct =>
      match ev.fileName with
      | none => rejectWith fs sess .invalidName
      | some name =>
        if name = "" then rejectWith fs sess .invalidName
        else if ct = "word_to_pdf" ∧ ¬ wordExtOk name then
          rejectWith fs sess .wrongExtWord
        else if ct = "pdf_to_word" ∧ ¬ pdfExtOk name then
          rejectWith fs sess .wrongExtPdf
        else if maxSize < ev.fileSize then
          rejectWith fs sess .tooLarge
        else convertBranch env fs sess ct name

/-- `button_callback` (`handlers.py`, lines 64-78): `query.answer()` is
always sent (a transport acknowledgement, not a message); only the
payloads `word_to_pdf` and `pdf_to_word` prompt for a file and store
the selection, each overwriting any prior value. Returns the session
afterwards and the messages sent. -/
def button_callback (sess : Session) (payload : String) :
    Session × List Msg :=
  if payload = "word_to_pdf" then
    ({ conversionType := some "word_to_pdf" }, [.promptWordFile])
  else if payload = "pdf_to_word" then
    ({ conversionType := some "pdf_to_word" }, [.promptPdfFile])
  else (sess, [])

theorem charOfNat_toNat {n : Nat} (h1 : n < 55296) : (Char.ofNat n).toNat = n := by
  have hv : n.isValidChar := Or.inl h1
  simp [Char.ofNat, hv, Char.ofNatAux, Char.toNat, UInt32.ofNat', UInt32.toNat]

theorem char_toNat_inj {a b : Char} (h : a.toNat = b.toNat) : a = b :=
  Char.ext (UInt32.toNat.inj h)

theorem pyCharLower_toNat (c : Char) :
    (pyCharLower c).toNat =
      if 65 ≤ c.toNat ∧ c.toNat ≤ 90 then c.toNat + 32 else c.toNat := by
  unfold pyCharLower
  by_cases h : 65 ≤ c.toNat ∧ c.toNat ≤ 90
  · rw [if_pos h, if_pos h]
    exact charOfNat_toNat (by omega)
  · rw [if_neg h, if_neg h]

theorem pyCharLower_idem (c : Char) :
    pyCharLower (pyCharLower c) = pyCharLower c := by
  apply char_toNat_inj
  rw [pyCharLower_toNat, pyCharLower_toNat]
  split_ifs <;> omega

theorem pyCharLower_eq_low {c d : Char} (hd : d.toNat < 65) :
    pyCharLower c = d ↔ c = d := by
  constructor
  · intro h
    by_cases hc : 65 ≤ c.toNat ∧ c.toNat ≤ 90
    · exfalso
      have ht := congrArg Char.toNat h
      rw [pyCharLower_toNat, if_pos hc] at ht
      omega
    · rwa [pyCharLower, if_neg hc] at h
  · intro h
    subst h
    rw [pyCharLower, if_neg]
    omega

theorem takeWhileCongr {α : Type} {p q : α → Bool} :
    ∀ (l : List α), (∀ a ∈ l, p a = q a) → l.takeWhile p = l.takeWhile q
  | [], _ => rfl
  | a :: l, h => by
    rw [List.takeWhile_cons, List.takeWhile_cons, h a (List.mem_cons_self a l),
      takeWhileCongr l (fun b hb => h b (List.mem_cons_of_mem a hb))]

theorem decide_ne_slash (c : Char) :
    (decide (pyCharLower c ≠ '/')) = decide (c ≠ '/') := by
  rw [decide_eq_decide]
  exact not_congr (pyCharLower_eq_low (by decide))

theorem decide_ne_dot (c : Char) :
    (decide (pyCharLower c ≠ '.')) = decide (c ≠ '.') := by
  rw [decide_eq_decide]
  exact not_congr (pyCharLower_eq_low (by decide))

theorem pyNameL_map (cs : List Char) :
    pyNameL (cs.map pyCharLower) = (pyNameL cs).map pyCharLower := by
  unfold pyNameL
  rw [← List.map_reverse, List.takeWhile_map]
  simp only [Function.comp_def]
  rw [takeWhileCongr cs.reverse (fun a _ => decide_ne_slash a), List.map_reverse]

theorem tailDot_map (n : List Char) :
    ((n.map pyCharLower).reverse.takeWhile (fun c => c ≠ '.')).reverse =
      ((n.reverse.takeWhile (fun c => c ≠ '.')).reverse).map pyCharLower := by
  rw [← List.map_reverse, List.takeWhile_map]
  simp only [Function.comp_def]
  rw [takeWhileCongr n.reverse (fun a _ => decide_ne_dot a), List.map_reverse]

theorem contains_dot_map (n : List Char) :
    (n.map pyCharLower).contains '.' = n.contains '.' := by
  have key : ('.' ∈ n.map pyCharLower) ↔ ('.' ∈ n) := by
    simp only [List.mem_map]
    constructor
    · rintro ⟨a, ha, hEq⟩
      rw [pyCharLower_eq_low (by decide)] at hEq
      rwa [← hEq]
    · intro h
      exact ⟨'.', h, by decide⟩
  rw [Bool.eq_iff_iff]
  simpa using key

theorem pySuffixL_map (cs : List Char) :
    pySuffixL (cs.map pyCharLower) = (pySuffixL cs).map pyCharLower := by
  simp only [pySuffixL]
  rw [pyNameL_map, tailDot_map, contains_dot_map, List.length_map,
    List.length_map]
  by_cases h : (pyNameL cs).contains '.' = true ∧
      0 < (pyNameL cs).length -
        ((((pyNameL cs).reverse.takeWhile (fun c => c ≠ '.')).reverse)).length - 1 ∧
      0 < ((((pyNameL cs).reverse.takeWhile (fun c => c ≠ '.')).reverse)).length
  · rw [if_pos h, if_pos h, List.map_cons]
    congr 1
  · rw [if_neg h, if_neg h]
    rfl

theorem pySuffix_pyLower (p : String) :
    pySuffix (pyLower p) = pyLower (pySuffix p) := by
  simpa [pySuffix, pyLower] using congrArg String.mk (pySuffixL_map p.toList)

theorem pyLower_idem (s : String) : pyLower (pyLower s) = pyLower s := by
  have h : (pyLower s).toList = s.toList.map pyCharLower := rfl
  show String.mk ((pyLower s).toList.map pyCharLower) = pyLower s
  have hf : pyCharLower ∘ pyCharLower = pyCharLower := by
    funext c
    exact pyCharLower_idem c
  rw [h, List.map_map, hf]
  rfl

/-- C10: Extension matching is case-insensitive at both layers: the
dispatcher checks `file_name.lower().endswith(...)` and the converters
check `Path(p).suffix.lower()`, so each check is invariant under
lowercasing its input; in particular `REPORT.DOCX` passes the Word
checks and `Report.PDF` the PDF checks at both layers. -/
theorem extension_checks_case_insensitive :
    (∀ name : String, wordExtOk (pyLower name) = wordExtOk name) ∧
    (∀ name : String, pdfExtOk (pyLower name) = pdfExtOk name) ∧
    (∀ p : String, wordSuffixOk (pyLower p) = wordSuffixOk p) ∧
    (∀ p : String, pdfSuffixOk (pyLower p) = pdfSuffixOk p) ∧
    wordExtOk "REPORT.DOCX" = true ∧
    pdfExtOk "Report.PDF" = true ∧
    wordSuffixOk "temp/REPORT.DOCX" = true ∧
    pdfSuffixOk "temp/Report.PDF" = true := by
  refine ⟨?_, ?_, ?_, ?_, by decide, by decide, by decide, by decide⟩
  · intro name
    unfold wordExtOk
    rw [pyLower_idem]
  · intro name
    unfold pdfExtOk
    rw [pyLower_idem]
  · intro p
    unfold wordSuffixOk
    rw [pySuffix_pyLower, pyLower_idem]
  · intro p
    unfold pdfSuffixOk
    rw [pySuffix_pyLower, pyLower_idem]

/-- C9: only the payloads `word_to_pdf` and `pdf_to_word` change the
session or send a prompt; any other callback payload leaves the
selection unchanged and sends nothing, and each recognized payload
overwrites any prior selection. -/
theorem button_callback_only_known_payloads (sess : Session)
    (payload : String) :
    (payload ≠ "word_to_pdf" → payload ≠ "pdf_to_word" →
      button_callback sess payload = (sess, [])) ∧
    button_callback sess "word_to_pdf" =
      ({ conversionType := some "word_to_pdf" }, [.promptWordFile]) ∧
    button_callback sess "pdf_to_word" =
      ({ conversionType := some "pdf_to_word" }, [.promptPdfFile]) := by
  refine ⟨fun h1 h2 => ?_, by simp [button_callback], by simp [button_callback]⟩
  simp [button_callback, h1, h2]

theorem button_callback_only_known_payloads_witness :
    button_callback { conversionType := some "pdf_to_word" } "reset" =
      ({ conversionType := some "pdf_to_word" }, []) :=
  (button_callback_only_known_payloads _ "reset").1 (by decide) (by decide)

/-- C3: a document event in a session with no stored `conversion_type`
is answered with the "use /start first" instruction, no download is
attempted, and the reply list is non-empty (not silently dropped). -/
theorem document_without_selection_rejected (env : Env) (fs : List String)
    (sess : Session) (ev : DocEvent) (hDoc : ev.hasDocument = true)
    (hSel : sess.conversionType = none) :
    (handle_document env fs sess ev).replies = [.selectFirst] ∧
    (handle_document env fs sess ev).downloadAttempted = false ∧
    (handle_document env fs sess ev).replies ≠ [] := by
  simp [handle_document, hDoc, hSel, rejectWith]

/-- Fixture environment in which every external collaborator succeeds
and no Word document has any paragraph. -/
def envA : Env :=
  { downloadOk := true, docs := fun _ => [], writeOk := true,
    convOk := true, sendOk := true, removeOk := fun _ => true }

theorem document_without_selection_rejected_witness :
    (handle_document envA [] { conversionType := none }
        { hasDocument := true, fileName := some "a.docx", fileSize := 5
        }).replies = [.selectFirst] ∧
    (handle_document envA [] { conversionType := none }
        { hasDocument := true, fileName := some "a.docx", fileSize := 5
        }).downloadAttempted = false ∧
    (handle_document envA [] { conversionType := none }
        { hasDocument := true, fileName := some "a.docx", fileSize := 5
        }).replies ≠ [] :=
  document_without_selection_rejected envA [] _ _ rfl rfl

/-- C4: with a pending selection, a filename that does not match the
selection's extensions is rejected with the matching mismatch message
and the handler returns the `rejectWith` record: no download attempt,
filesystem untouched, session (and so the stored selection) unchanged. -/
theorem mismatched_extension_rejected (env : Env) (fs : List String)
    (sess : Session) (ev : DocEvent) (ct name : String)
    (hDoc : ev.hasDocument = true) (hSel : sess.conversionType = some ct)
    (hName : ev.fileName = some name) (hne : name ≠ "") :
    (ct = "word_to_pdf" → wordExtOk name = false →
      handle_document env fs sess ev = rejectWith fs sess .wrongExtWord) ∧
    (ct = "pdf_to_word" → pdfExtOk name = false →
      handle_document env fs sess ev = rejectWith fs sess .wrongExtPdf) := by
  constructor
  · intro hct hext
    subst hct
    simp [handle_document, hDoc, hSel, hName, hne, hext]
  · intro hct hext
    subst hct
    have hnw : ("pdf_to_word" : String) ≠ "word_to_pdf" := by decide
    simp [handle_document, hDoc, hSel, hName, hne, hext, hnw]

theorem mismatched_extension_rejected_witness :
    handle_document envA []
        ((button_callback { conversionType := none } "pdf_to_word").1)
        { hasDocument := true, fileName := some "report.docx",
          fileSize := 5 } =
      rejectWith []
        ((button_callback { conversionType := none } "pdf_to_word").1)
        .wrongExtPdf ∧
    ((button_callback { conversionType := none }
        "pdf_to_word").1).conversionType = some "pdf_to_word" :=
  ⟨(mismatched_extension_rejected envA [] _ _ "pdf_to_word" "report.docx"
      rfl rfl rfl (by decide)).2 rfl (by decide), by decide⟩

/-- C5: once the document, selection, filename and extension checks have
passed, the upload is rejected with the oversize message (and no
download attempted) exactly when the reported size exceeds
`20 * 1024 * 1024` bytes. -/
theorem oversize_rejected_iff (env : Env) (fs : List String)
    (sess : Session) (ev : DocEvent) (ct name : String)
    (hDoc : ev.hasDocument = true) (hSel : sess.conversionType = some ct)
    (hName : ev.fileName = some name) (hne : name ≠ "")
    (hct : ct = "word_to_pdf" ∨ ct = "pdf_to_word")
    (hword : ct = "word_to_pdf" → wordExtOk name = true)
    (hpdf : ct = "pdf_to_word" → pdfExtOk name = true) :
    ((handle_document env fs sess ev).replies = [.tooLarge] ∧
      (handle_document env fs sess ev).downloadAttempted = false) ↔
      maxSize < ev.fileSize := by
  by_cases hsz : maxSize < ev.fileSize
  · have hr : handle_document env fs sess ev = rejectWith fs sess .tooLarge := by
      rcases hct with h | h
      · subst h
        simp [handle_document, hDoc, hSel, hName, hne, hword rfl, hsz]
      · subst h
        have hnw : ("pdf_to_word" : String) ≠ "word_to_pdf" := by decide
        simp [handle_document, hDoc, hSel, hName, hne, hpdf rfl, hnw, hsz]
    simp [hr, rejectWith, hsz]
  · have hda : (handle_document env fs sess ev).downloadAttempted = true := by
      rcases hct with h | h
      · subst h
        simp [handle_document, hDoc, hSel, hName, hne, hword rfl, hsz,
          convertBranch_downloadAttempted]
      · subst h
        have hnw : ("pdf_to_word" : String) ≠ "word_to_pdf" := by decide
        simp [handle_document, hDoc, hSel, hName, hne, hpdf rfl, hnw, hsz,
          convertBranch_downloadAttempted]
    constructor
    · rintro ⟨-, hfalse⟩
      rw [hda] at hfalse
      exact absurd hfalse (by simp)
    · intro h
      exact absurd h hsz

theorem oversize_rejected_iff_witness :
    (((handle_document envA [] { conversionType := some "word_to_pdf" }
        { hasDocument := true, fileName := some "t.docx",
          fileSize := 20971520 }).replies = [.tooLarge] ∧
      (handle_document envA [] { conversionType := some "word_to_pdf" }
        { hasDocument := true, fileName := some "t.docx",
          fileSize := 20971520 }).downloadAttempted = false) ↔
      maxSize < 20971520) ∧
    (handle_document envA [] { conversionType := some "word_to_pdf" }
        { hasDocument := true, fileName := some "t.docx",
          fileSize := 20971520 }).downloadAttempted = true :=
  ⟨oversize_rejected_iff envA [] _ _ "word_to_pdf" "t.docx" rfl rfl rfl
      (by decide) (Or.inl rfl) (fun _ => by decide)
      (fun h => absurd h (by decide)),
    by decide⟩

/-- C7: `handle_document` never writes `context.user_data`, so the
session (and its stored selection) is returned unchanged by every path,
success included; hence a second upload in the same session is handled
under exactly the same selection. -/
theorem selection_survives_conversion (env : Env) (fs : List String)
    (sess : Session) (ev : DocEvent) (env2 : Env) (fs2 : List String)
    (ev2 : DocEvent) :
    (handle_document env fs sess ev).session = sess ∧
    handle_document env2 fs2 (handle_document env fs sess ev).session ev2 =
      handle_document env2 fs2 sess ev2 := by
  have h : (handle_document env fs sess ev).session = sess := by
    unfold handle_document rejectWith
    repeat' split
    all_goals rfl
  exact ⟨h, by rw [h]⟩

/-- C6: both converters raise `ValueError` (the spec's `FormatError`) on
an extension mismatch — with no condition on the filesystem, so the
extension check precedes the existence check — and raise
`FileNotFoundError` (the spec's `NotFound`) when the extension is right
but the source file is absent. -/
theorem converter_error_taxonomy (docs : String → List String)
    (writeOk convOk : Bool) (fs : List String) (path : String) :
    (wordSuffixOk path = false →
      word_to_pdf docs writeOk fs path =
        .error (.valueError ("Invalid file extension: " ++
          pyLower (pySuffix path) ++ ". Expected .doc or .docx"))) ∧
    (wordSuffixOk path = true → fs.contains path = false →
      word_to_pdf docs writeOk fs path =
        .error (.fileNotFoundError ("Input file not found: " ++ path))) ∧
    (pdfSuffixOk path = false →
      pdf_to_word convOk fs path =
        .error (.valueError ("Invalid file extension: " ++
          pyLower (pySuffix path) ++ ". Expected .pdf"))) ∧
    (pdfSuffixOk path = true → fs.contains path = false →
      pdf_to_word convOk fs path =
        .error (.fileNotFoundError ("Input file not found: " ++ path))) := by
  refine ⟨fun h => ?_, fun h1 h2 => ?_, fun h => ?_, fun h1 h2 => ?_⟩
  · simp [word_to_pdf, h]
  · have h2m : ¬ path ∈ fs := by simpa using h2
    simp [word_to_pdf, h1, h2m]
  · simp [pdf_to_word, h]
  · have h2m : ¬ path ∈ fs := by simpa using h2
    simp [pdf_to_word, h1, h2m]

theorem converter_error_taxonomy_witness :
    word_to_pdf (fun _ => []) true [] "temp/a.txt" =
      .error (.valueError ("Invalid file extension: " ++
        pyLower (pySuffix "temp/a.txt") ++ ". Expected .doc or .docx")) ∧
    word_to_pdf (fun _ => []) true [] "temp/b.docx" =
      .error (.fileNotFoundError ("Input file not found: " ++
        "temp/b.docx")) ∧
    pdf_to_word true [] "temp/c.docx" =
      .error (.valueError ("Invalid file extension: " ++
        pyLower (pySuffix "temp/c.docx") ++ ". Expected .pdf")) ∧
    pdf_to_word true [] "temp/d.pdf" =
      .error (.fileNotFoundError ("Input file not found: " ++
        "temp/d.pdf")) :=
  ⟨(converter_error_taxonomy (fun _ => []) true true [] "temp/a.txt").1
      (by decide),
    (converter_error_taxonomy (fun _ => []) true true [] "temp/b.docx").2.1
      (by decide) (by decide),
    (converter_error_taxonomy (fun _ => []) true true [] "temp/c.docx").2.2.1
      (by decide),
    (converter_error_taxonomy (fun _ => []) true true [] "temp/d.pdf").2.2.2
      (by decide) (by decide)⟩

/-- C8: `cleanup_temp_files` is best-effort and total: a missing path is
a no-op, a successful `os.remove` deletes exactly that path, and any
error raised by the body is swallowed (logged) so the caller never sees
an exception and the filesystem is returned as it was. -/
theorem cleanup_best_effort (removeOk : String → Bool) (fs : List String)
    (path : String) :
    (fs.contains path = false → cleanup_temp_files removeOk fs path = fs) ∧
    (fs.contains path = true → removeOk path = true →
      cleanup_temp_files removeOk fs path =
        fs.filter (fun q => q != path)) ∧
    (∀ e : PyErr, cleanupBody removeOk fs path = .error e →
      cleanup_temp_files removeOk fs path = fs) := by
  refine ⟨fun h => ?_, fun h1 h2 => ?_, fun e he => ?_⟩
  · have hm : ¬ path ∈ fs := by simpa using h
    simp [cleanup_temp_files, cleanupBody, hm]
  · have hm : path ∈ fs := by simpa using h1
    simp [cleanup_temp_files, cleanupBody, hm, h2]
  · simp [cleanup_temp_files, he]

theorem cleanup_best_effort_witness :
    cleanup_temp_files (fun _ => false) ["temp/a"] "temp/a" = ["temp/a"] ∧
    cleanup_temp_files (fun _ => true) [] "temp/a" = [] ∧
    cleanup_temp_files (fun _ => true) ["temp/a", "temp/b"] "temp/a" =
      ["temp/a", "temp/b"].filter (fun q => q != "temp/a") :=
  ⟨(cleanup_best_effort (fun _ => false) ["temp/a"] "temp/a").2.2 .osError
      (by rfl),
    (cleanup_best_effort (fun _ => true) [] "temp/a").1 (by decide),
    (cleanup_best_effort (fun _ => true) ["temp/a", "temp/b"] "temp/a").2.1
      (by decide) (by decide)⟩

/-- C1 (amended): every successful `word_to_pdf` run writes one text
block per source paragraph whose stripped text is non-empty, in the
original paragraph order, each block being the paragraph with every
character of code point 128 or above removed — 7-bit characters are
kept even when they are not printable. -/
theorem word_to_pdf_blocks (docs : String → List String) (writeOk : Bool)
    (fs : List String) (path : String) (fs' : List String) (out : String)
    (blocks : List String)
    (h : word_to_pdf docs writeOk fs path = .ok (fs', out, blocks)) :
    blocks = ((docs path).filter stripTruthy).map cleanAscii ∧
    blocks.length = ((docs path).filter stripTruthy).length ∧
    (∀ b ∈ blocks, ∀ c ∈ b.toList, c.toNat < 128) := by
  have hb : blocks = pdfBlocks (docs path) := by
    unfold word_to_pdf at h
    split at h
    · exact absurd h (by simp)
    · split at h
      · exact absurd h (by simp)
      · split at h
        · exact absurd h (by simp)
        · simp only [Except.ok.injEq, Prod.mk.injEq] at h
          exact h.2.2.symm
  refine ⟨by rw [hb, pdfBlocks], by rw [hb, pdfBlocks, List.length_map], ?_⟩
  intro b hbmem c hc
  rw [hb, pdfBlocks] at hbmem
  obtain ⟨a, _, rfl⟩ := List.mem_map.mp hbmem
  have hcf : c ∈ a.toList.filter (fun d => d.toNat < 128) := hc
  simpa using (List.mem_filter.mp hcf).2

/-- C1 as stated is false: a tab character (code point 9, outside the
7-bit printable range 32..126) is kept in the produced text block. -/
theorem word_to_pdf_blocks_counterexample :
    word_to_pdf (fun _ => ["a\tb"]) true ["temp/t.docx"] "temp/t.docx" =
      .ok (["temp/t.pdf", "temp/t.docx"], "temp/t.pdf", ["a\tb"]) ∧
    ¬ (∀ b ∈ ["a\tb"], ∀ c ∈ b.toList, 32 ≤ c.toNat ∧ c.toNat ≤ 126) := by
  refine ⟨by rfl, ?_⟩
  decide

/-- The 3-paragraph sample document of the spec's concrete scenario
(also built by `test_conversion.py`). -/
def sampleDocs : String → List String := fun _ =>
  ["This is a test document.", "It contains multiple paragraphs.",
    "Used for testing file conversion."]

theorem word_to_pdf_blocks_witness :
    (["This is a test document.", "It contains multiple paragraphs.",
        "Used for testing file conversion."] =
      ((sampleDocs "temp/test_document.docx").filter stripTruthy).map
        cleanAscii ∧
    (["This is a test document.", "It contains multiple paragraphs.",
        "Used for testing file conversion."] : List String).length =
      ((sampleDocs "temp/test_document.docx").filter stripTruthy).length ∧
    (∀ b ∈ ["This is a test document.", "It contains multiple paragraphs.",
        "Used for testing file conversion."],
      ∀ c ∈ b.toList, c.toNat < 128)) ∧
    ∀ b ∈ ["This is a test document.", "It contains multiple paragraphs.",
        "Used for testing file conversion."], b ≠ "" :=
  ⟨word_to_pdf_blocks sampleDocs true ["temp/test_document.docx"]
      "temp/test_document.docx"
      ["temp/test_document.pdf", "temp/test_document.docx"]
      "temp/test_document.pdf"
      ["This is a test document.", "It contains multiple paragraphs.",
        "Used for testing file conversion."] (by rfl),
    by decide⟩

theorem not_mem_filter_ne (fs : List String) (p : String) :
    ¬ p ∈ fs.filter (fun q => q != p) := by
  intro h
  have h2 := (List.mem_filter.mp h).2
  simp at h2

theorem cleanup_eq_filter (removeOk : String → Bool) (fs : List String)
    (p : String) (hm : p ∈ fs) (hr : removeOk p = true) :
    cleanup_temp_files removeOk fs p = fs.filter (fun q => q != p) := by
  unfold cleanup_temp_files cleanupBody
  simp [hm, hr]

theorem cleanup_eq_self_of_not_mem (removeOk : String → Bool)
    (fs : List String) (p : String) (hm : ¬ p ∈ fs) :
    cleanup_temp_files removeOk fs p = fs := by
  unfold cleanup_temp_files cleanupBody
  simp [hm]

theorem cleanup_not_mem (removeOk : String → Bool) (fs : List String)
    (p : String) (h : removeOk p = true) :
    ¬ p ∈ cleanup_temp_files removeOk fs p := by
  by_cases hm : p ∈ fs
  · rw [cleanup_eq_filter removeOk fs p hm h]
    exact not_mem_filter_ne fs p
  · rw [cleanup_eq_self_of_not_mem removeOk fs p hm]
    exact hm

theorem cleanup_mono (removeOk : String → Bool) (fs : List String)
    (p q : String) (h : ¬ q ∈ fs) :
    ¬ q ∈ cleanup_temp_files removeOk fs p := by
  by_cases hm : p ∈ fs
  · by_cases hr : removeOk p = true
    · rw [cleanup_eq_filter removeOk fs p hm hr]
      intro hmem
      exact h (List.mem_filter.mp hmem).1
    · rw [cleanup_temp_files, cleanupBody]
      simp [hm, hr]
      exact h
  · rw [cleanup_eq_self_of_not_mem removeOk fs p hm]
    exact h

theorem cleanup_mem_of_ne (removeOk : String → Bool) (fs : List String)
    (p q : String) (hmem : q ∈ fs) (hne : q ≠ p) :
    q ∈ cleanup_temp_files removeOk fs p := by
  by_cases hm : p ∈ fs
  · by_cases hr : removeOk p = true
    · rw [cleanup_eq_filter removeOk fs p hm hr]
      exact List.mem_filter.mpr ⟨hmem, by simpa using hne⟩
    · rw [cleanup_temp_files, cleanupBody]
      simp [hm, hr]
      exact hmem
  · rw [cleanup_eq_self_of_not_mem removeOk fs p hm]
    exact hmem


theorem containsOfMem {fs : List String} {r : String} (h : r ∈ fs) :
    fs.contains r = true :=
  List.elem_iff.mpr h

theorem notContainsOfNotMem {fs : List String} {r : String}
    (h : ¬ r ∈ fs) : ¬ fs.contains r = true :=
  fun hc => h (List.elem_iff.mp hc)

theorem cleanupStep_some_mem (removeOk : String → Bool)
    (fs : List String) (r : String) (h : r ∈ fs) :
    cleanupStep removeOk fs (some r) =
      (cleanup_temp_files removeOk fs r, [r]) := by
  rw [cleanupStep, if_pos (containsOfMem h)]

theorem cleanupStep_some_not_mem (removeOk : String → Bool)
    (fs : List String) (r : String) (h : ¬ r ∈ fs) :
    cleanupStep removeOk fs (some r) = (fs, []) := by
  rw [cleanupStep, if_neg (notContainsOfNotMem h)]

theorem cleanupStep_mono (removeOk : String → Bool) (fs : List String)
    (p : Option String) (q : String) (h : ¬ q ∈ fs) :
    ¬ q ∈ (cleanupStep removeOk fs p).1 := by
  cases p with
  | none => exact h
  | some r =>
    by_cases hc : r ∈ fs
    · rw [cleanupStep_some_mem removeOk fs r hc]
      exact cleanup_mono removeOk fs r q h
    · rw [cleanupStep_some_not_mem removeOk fs r hc]
      exact h

theorem cleanupStep_count_zero (removeOk : String → Bool)
    (fs : List String) (p : Option String) (dp : String)
    (h : ¬ dp ∈ fs) : ((cleanupStep removeOk fs p).2.count dp) = 0 := by
  cases p with
  | none => rfl
  | some r =>
    by_cases hc : r ∈ fs
    · rw [cleanupStep_some_mem removeOk fs r hc]
      rw [List.count_eq_zero]
      intro hd
      rw [List.mem_singleton] at hd
      exact h (hd ▸ hc)
    · rw [cleanupStep_some_not_mem removeOk fs r hc]
      rfl
theorem finallyCleanup_dl_spec (removeOk : String → Bool) (t : TryOut)
    (dp : String) (hall : ∀ p, removeOk p = true) (hdl : t.dl = some dp) :
    ¬ dp ∈ (finallyCleanup removeOk t).1 ∧
    (finallyCleanup removeOk t).2.count dp =
      (if dp ∈ t.fs then 1 else 0) := by
  simp only [finallyCleanup]
  rw [hdl]
  by_cases h1 : dp ∈ t.fs
  · rw [cleanupStep_some_mem removeOk t.fs dp h1]
    have hn1 : ¬ dp ∈ cleanup_temp_files removeOk t.fs dp :=
      cleanup_not_mem removeOk t.fs dp (hall dp)
    refine ⟨cleanupStep_mono removeOk _ t.outp dp hn1, ?_⟩
    rw [List.count_append,
      cleanupStep_count_zero removeOk _ t.outp dp hn1, if_pos h1]
    simp
  · rw [cleanupStep_some_not_mem removeOk t.fs dp h1]
    refine ⟨cleanupStep_mono removeOk t.fs t.outp dp h1, ?_⟩
    rw [List.count_append,
      cleanupStep_count_zero removeOk t.fs t.outp dp h1, if_neg h1]
    rfl

theorem finallyCleanup_out_spec (removeOk : String → Bool) (t : TryOut)
    (op : String) (hall : ∀ p, removeOk p = true)
    (hout : t.outp = some op) :
    ¬ op ∈ (finallyCleanup removeOk t).1 ∧
    (op ∈ t.fs → (finallyCleanup removeOk t).2.count op = 1) := by
  simp only [finallyCleanup]
  rw [hout]
  cases hdl : t.dl with
  | none =>
    have e1 : cleanupStep removeOk t.fs none = (t.fs, ([] : List String)) :=
      rfl
    rw [e1]
    dsimp only
    by_cases h2 : op ∈ t.fs
    · rw [cleanupStep_some_mem removeOk _ op h2]
      refine ⟨cleanup_not_mem removeOk _ op (hall op), fun _ => ?_⟩
      simp
    · rw [cleanupStep_some_not_mem removeOk _ op h2]
      exact ⟨h2, fun h => absurd h h2⟩
  | some dp =>
    by_cases h1 : dp ∈ t.fs
    · rw [cleanupStep_some_mem removeOk t.fs dp h1]
      by_cases heq : op = dp
      · subst heq
        have hn1 : ¬ op ∈ cleanup_temp_files removeOk t.fs op :=
          cleanup_not_mem removeOk t.fs op (hall op)
        rw [cleanupStep_some_not_mem removeOk _ op hn1]
        refine ⟨hn1, fun _ => ?_⟩
        simp
      · by_cases h2 : op ∈ t.fs
        · have hf1 : op ∈ cleanup_temp_files removeOk t.fs dp :=
            cleanup_mem_of_ne removeOk t.fs dp op h2 heq
          rw [cleanupStep_some_mem removeOk _ op hf1]
          refine ⟨cleanup_not_mem removeOk _ op (hall op), fun _ => ?_⟩
          rw [List.count_append]
          have hz : List.count op [dp] = 0 := by
            rw [List.count_eq_zero]
            intro hd
            exact heq (List.mem_singleton.mp hd)
          rw [hz]
          simp
        · have hf1 : ¬ op ∈ cleanup_temp_files removeOk t.fs dp :=
            cleanup_mono removeOk t.fs dp op h2
          rw [cleanupStep_some_not_mem removeOk _ op hf1]
          exact ⟨hf1, fun h => absurd h h2⟩
    · rw [cleanupStep_some_not_mem removeOk t.fs dp h1]
      by_cases h2 : op ∈ t.fs
      · rw [cleanupStep_some_mem removeOk t.fs op h2]
        refine ⟨cleanup_not_mem removeOk t.fs op (hall op), fun _ => ?_⟩
        simp
      · rw [cleanupStep_some_not_mem removeOk t.fs op h2]
        exact ⟨h2, fun h => absurd h h2⟩

theorem mem_insertFile_self (p : String) (fs : List String) :
    p ∈ insertFile p fs := by
  unfold insertFile
  by_cases h : p ∈ fs
  · rw [if_pos (containsOfMem h)]
    exact h
  · rw [if_neg (notContainsOfNotMem h)]
    exact List.mem_cons_self p fs

theorem mem_insertFile_of_mem (p q : String) (fs : List String)
    (h : q ∈ fs) : q ∈ insertFile p fs := by
  unfold insertFile
  by_cases hc : p ∈ fs
  · rw [if_pos (containsOfMem hc)]
    exact h
  · rw [if_neg (notContainsOfNotMem hc)]
    exact List.mem_cons_of_mem p h

theorem word_to_pdf_ok_fs (docs : String → List String) (writeOk : Bool)
    (fs fs' : List String) (path out : String) (blocks : List String)
    (h : word_to_pdf docs writeOk fs path = .ok (fs', out, blocks)) :
    fs' = insertFile out fs := by
  unfold word_to_pdf at h
  split at h
  · exact absurd h (by simp)
  · split at h
    · exact absurd h (by simp)
    · split at h
      · exact absurd h (by simp)
      · simp only [Except.ok.injEq, Prod.mk.injEq] at h
        rw [← h.1, h.2.1]

theorem pdf_to_word_ok_fs (convOk : Bool) (fs fs' : List String)
    (path out : String)
    (h : pdf_to_word convOk fs path = .ok (fs', out)) :
    fs' = insertFile out fs := by
  unfold pdf_to_word at h
  split at h
  · exact absurd h (by simp)
  · split at h
    · exact absurd h (by simp)
    · split at h
      · exact absurd h (by simp)
      · simp only [Except.ok.injEq, Prod.mk.injEq] at h
        rw [← h.1, h.2]

theorem tryConvert_spec (env : Env) (fs : List String) (ct name : String) :
    (tryConvert env fs ct name).dl = some ("temp/" ++ name) ∧
    (env.downloadOk = true →
      ("temp/" ++ name) ∈ (tryConvert env fs ct name).fs) ∧
    (∀ op, (tryConvert env fs ct name).outp = some op →
      op ∈ (tryConvert env fs ct name).fs) := by
  simp only [tryConvert]
  by_cases hD : env.downloadOk = true
  · rw [if_neg (show ¬ ¬ env.downloadOk = true by simp [hD])]
    by_cases hct : ct = "word_to_pdf"
    · rw [if_pos hct]
      cases hW : word_to_pdf env.docs env.writeOk
          (insertFile ("temp/" ++ name) fs) ("temp/" ++ name) with
      | error e =>
        exact ⟨rfl, fun _ => mem_insertFile_self _ _,
          fun op hop => absurd hop (by simp)⟩
      | ok p =>
        obtain ⟨fs2, out2, bl⟩ := p
        dsimp only
        have hfs2 : fs2 = insertFile out2
            (insertFile ("temp/" ++ name) fs) :=
          word_to_pdf_ok_fs env.docs env.writeOk _ fs2 _ out2 bl hW
        by_cases hS : env.sendOk = true
        · rw [if_neg (show ¬ ¬ env.sendOk = true by simp [hS])]
          refine ⟨rfl, fun _ => ?_, fun op hop => ?_⟩
          · rw [hfs2]
            exact mem_insertFile_of_mem _ _ _ (mem_insertFile_self _ _)
          · obtain rfl : out2 = op := by simpa using hop
            rw [hfs2]
            exact mem_insertFile_self _ _
        · rw [if_pos (show ¬ env.sendOk = true by simp [hS])]
          refine ⟨rfl, fun _ => ?_, fun op hop => ?_⟩
          · rw [hfs2]
            exact mem_insertFile_of_mem _ _ _ (mem_insertFile_self _ _)
          · obtain rfl : out2 = op := by simpa using hop
            rw [hfs2]
            exact mem_insertFile_self _ _
    · rw [if_neg hct]
      cases hW : pdf_to_word env.convOk
          (insertFile ("temp/" ++ name) fs) ("temp/" ++ name) with
      | error e =>
        exact ⟨rfl, fun _ => mem_insertFile_self _ _,
          fun op hop => absurd hop (by simp)⟩
      | ok p =>
        obtain ⟨fs2, out2⟩ := p
        dsimp only
        have hfs2 : fs2 = insertFile out2
            (insertFile ("temp/" ++ name) fs) :=
          pdf_to_word_ok_fs env.convOk _ fs2 _ out2 hW
        by_cases hS : env.sendOk = true
        · rw [if_neg (show ¬ ¬ env.sendOk = true by simp [hS])]
          refine ⟨rfl, fun _ => ?_, fun op hop => ?_⟩
          · rw [hfs2]
            exact mem_insertFile_of_mem _ _ _ (mem_insertFile_self _ _)
          · obtain rfl : out2 = op := by simpa using hop
            rw [hfs2]
            exact mem_insertFile_self _ _
        · rw [if_pos (show ¬ env.sendOk = true by simp [hS])]
          refine ⟨rfl, fun _ => ?_, fun op hop => ?_⟩
          · rw [hfs2]
            exact mem_insertFile_of_mem _ _ _ (mem_insertFile_self _ _)
          · obtain rfl : out2 = op := by simpa using hop
            rw [hfs2]
            exact mem_insertFile_self _ _
  · rw [if_pos (show ¬ env.downloadOk = true from hD)]
    exact ⟨rfl, fun h => absurd h hD, fun op hop => absurd hop (by simp)⟩

theorem handle_document_shape (env : Env) (fs : List String)
    (sess : Session) (ev : DocEvent) :
    (∃ m, handle_document env fs sess ev = rejectWith fs sess m) ∨
    (∃ ct name, handle_document env fs sess ev =
      convertBranch env fs sess ct name) := by
  unfold handle_document
  repeat' split
  all_goals first
    | exact Or.inl ⟨_, rfl⟩
    | exact Or.inr ⟨_, _, rfl⟩

/-- C2: whenever `os.remove` succeeds, a finished `handle_document` job
leaves neither its `download_path` nor its `output_path` in the scratch
directory; each of the two is passed to `cleanup_temp_files` at most
once — exactly once when the corresponding file was actually created
(always for the download when it succeeded, always for a produced
output) — on every success and failure path. -/
theorem temp_files_removed (env : Env) (fs : List String)
    (sess : Session) (ev : DocEvent)
    (hall : ∀ p, env.removeOk p = true) :
    (∀ dp, (handle_document env fs sess ev).dlPath = some dp →
      ¬ dp ∈ (handle_document env fs sess ev).scratch ∧
      (handle_document env fs sess ev).cleanupCalls.count dp ≤ 1 ∧
      (env.downloadOk = true →
        (handle_document env fs sess ev).cleanupCalls.count dp = 1)) ∧
    (∀ op, (handle_document env fs sess ev).outPath = some op →
      ¬ op ∈ (handle_document env fs sess ev).scratch ∧
      (handle_document env fs sess ev).cleanupCalls.count op = 1) := by
  rcases handle_document_shape env fs sess ev with ⟨m, hm⟩ | ⟨ct, name, hm⟩
  · rw [hm]
    constructor
    · intro dp hdp
      exact absurd hdp (by simp [rejectWith])
    · intro op hop
      exact absurd hop (by simp [rejectWith])
  · rw [hm]
    obtain ⟨hdl, hdlmem, houtmem⟩ := tryConvert_spec env fs ct name
    constructor
    · intro dp hdp
      have hdp' : (tryConvert env fs ct name).dl = some dp := hdp
      have hdpv : dp = "temp/" ++ name := by
        rw [hdl] at hdp'
        exact (Option.some.inj hdp').symm
      have hdp2 : (tryConvert env fs ct name).dl = some dp := hdp
      have hfin := finallyCleanup_dl_spec env.removeOk
        (tryConvert env fs ct name) dp hall hdp2
      have hcc : (convertBranch env fs sess ct name).cleanupCalls =
          (finallyCleanup env.removeOk (tryConvert env fs ct name)).2 :=
        rfl
      refine ⟨hfin.1, ?_, ?_⟩
      · rw [hcc, hfin.2]
        split <;> omega
      · intro hD
        rw [hcc, hfin.2,
          if_pos (show dp ∈ (tryConvert env fs ct name).fs by
            rw [hdpv]; exact hdlmem hD)]
    · intro op hop
      have hop' : (tryConvert env fs ct name).outp = some op := hop
      have hfin := finallyCleanup_out_spec env.removeOk
        (tryConvert env fs ct name) op hall hop'
      exact ⟨hfin.1, hfin.2 (houtmem op hop')⟩

theorem temp_files_removed_witness :
    ¬ "temp/t.docx" ∈ (handle_document envA []
        { conversionType := some "word_to_pdf" }
        { hasDocument := true, fileName := some "t.docx",
          fileSize := 5 }).scratch ∧
    (handle_document envA [] { conversionType := some "word_to_pdf" }
        { hasDocument := true, fileName := some "t.docx",
          fileSize := 5 }).cleanupCalls.count "temp/t.docx" = 1 :=
  ⟨((temp_files_removed envA []
        { conversionType := some "word_to_pdf" }
        { hasDocument := true, fileName := some "t.docx", fileSize := 5 }
        (fun _ => rfl)).1 "temp/t.docx" rfl).1,
    ((temp_files_removed envA []
        { conversionType := some "word_to_pdf" }
        { hasDocument := true, fileName := some "t.docx", fileSize := 5 }
        (fun _ => rfl)).1 "temp/t.docx" rfl).2.2 rfl⟩
